import Mathlib

/-!
Verification of the Jira scraping/processing pipeline
(`scraper.py`, `processor.py`, `run_pipeline.py`, `test_validation.py`)
against its natural-language specification.

The Python code is shallowly embedded: each script's pure core becomes a
Lean function over explicit data (issues parsed from page files, the
on-disk page-file map, child-process exit codes, parsed JSONL lines).
`\s` of the cleaning regex is modelled over the ASCII whitespace class
(space, tab, newline, carriage return, vertical tab, form feed), which
covers every character the repository's data and tests exercise.
-/

/-- The ASCII whitespace class used by the cleaning regex `\s+` of
`processor.clean_text` (space, tab, newline, CR, vertical tab, form feed). -/
def isWS (c : Char) : Bool :=
  c = ' ' || c = '\t' || c = '\n' || c = '\r' || c = '\x0b' || c = '\x0c'

/-- One left-to-right pass of `re.sub(r"\s+", " ", text)`: every maximal run
of whitespace characters is replaced by a single space.  The boolean records
whether the previous character belonged to a whitespace run. -/
def collapseWS : Bool → List Char → List Char
  | _, [] => []
  | false, c :: rest =>
    if isWS c then ' ' :: collapseWS true rest else c :: collapseWS false rest
  | true, c :: rest =>
    if isWS c then collapseWS true rest else c :: collapseWS false rest

/-- Python `str.strip()` on the default whitespace class: drop leading and
trailing whitespace characters. -/
def pyStrip (l : List Char) : List Char :=
  ((l.dropWhile isWS).reverse.dropWhile isWS).reverse

/-- Model of `processor.clean_text`: `""` for falsy input, otherwise
`re.sub(r"\s+", " ", text).strip()`. -/
def clean_text (s : String) : String :=
  if s = "" then "" else String.mk (pyStrip (collapseWS false s.data))

/-- Python `str.strip()` lifted to `String` (used by the validator's
blank-field checks). -/
def pyStripStr (s : String) : String := String.mk (pyStrip s.data)

/-- Maximal non-whitespace runs of a character list, accumulating the
current (reversed) run in the first argument.  This is the specification-side
notion of the "runs" that cleaning collapses: `clean_text` must equal these
tokens joined by single spaces. -/
def tokensAux : List Char → List Char → List (List Char)
  | acc, [] => if acc = [] then [] else [acc.reverse]
  | acc, c :: rest =>
    if isWS c then
      if acc = [] then tokensAux [] rest else acc.reverse :: tokensAux [] rest
    else tokensAux (c :: acc) rest

/-- The maximal non-whitespace runs of a list. -/
def wsTokens (l : List Char) : List (List Char) := tokensAux [] l

/-- Modelled from the spec sentence "cleaning collapses each run of
whitespace characters into a single space and removes leading and trailing
whitespace": the maximal non-whitespace runs joined by single spaces. -/
def specClean (s : String) : String :=
  String.mk (List.intercalate [' '] (wsTokens s.data))

/-- Strip only trailing whitespace. -/
def stripTrail (l : List Char) : List Char :=
  (l.reverse.dropWhile isWS).reverse

/-- A Jira comment as the processor reads it: `body` and
`author.displayName`, each possibly absent or null. -/
structure Comment where
  body : Option String
  author : Option String
deriving DecidableEq

/-- The `fields` object of an issue, with every sub-field the processor
touches; `none` stands for an absent or null JSON value, on which
`safe_get` falls back to its default. -/
structure IssueFields where
  summary : Option String
  description : Option String
  statusName : Option String
  priorityName : Option String
  assignee : Option String
  labels : List String
  created : Option String
  comments : List Comment
deriving DecidableEq

/-- A raw issue record: `key` and the `fields` object, each possibly
absent. -/
structure Issue where
  key : Option String
  fields : Option IssueFields
deriving DecidableEq

/-- The default `{}` used by `issue.get('fields', {})`: every nested
`safe_get` falls through to its default. -/
def emptyFields : IssueFields :=
  { summary := none, description := none, statusName := none,
    priorityName := none, assignee := none, labels := [], created := none,
    comments := [] }

/-- The `meta` object of a training example. -/
structure EntryMeta where
  source : String
  id : String
  url : String
  task : String
deriving DecidableEq

/-- One JSONL training example as built by `format_for_llm`. -/
structure Entry where
  meta : EntryMeta
  instruction : String
  input : String
  output : String
deriving DecidableEq

def fieldsOf (i : Issue) : IssueFields := i.fields.getD emptyFields

def keyOf (i : Issue) : String := i.key.getD "UNKNOWN"

def summaryOf (i : Issue) : String :=
  clean_text ((fieldsOf i).summary.getD "No title provided")

def descriptionOf (i : Issue) : String :=
  clean_text ((fieldsOf i).description.getD "No description provided")

def statusOf (i : Issue) : String := (fieldsOf i).statusName.getD "Unknown"

def priorityOf (i : Issue) : String := (fieldsOf i).priorityName.getD "Unknown"

def assigneeOf (i : Issue) : String := (fieldsOf i).assignee.getD "Unassigned"

def labelsTextOf (i : Issue) : String :=
  if (fieldsOf i).labels.isEmpty then "None"
  else String.intercalate ", " (fieldsOf i).labels

/-- The comment loop body: clean the body, skip the comment when the
cleaned body is empty, otherwise render `"{author}: {body}"`. -/
def commentLine (c : Comment) : Option String :=
  if clean_text (c.body.getD "") = "" then none
  else some ((c.author.getD "Unknown") ++ ": " ++ clean_text (c.body.getD ""))

def commentsListOf (i : Issue) : List String :=
  (fieldsOf i).comments.filterMap commentLine

def commentsTextOf (i : Issue) : String :=
  if (commentsListOf i).isEmpty then "No comments."
  else String.intercalate " | " (commentsListOf i)

def jiraUrl (key : String) : String :=
  "https://issues.apache.org/jira/browse/" ++ key

/-- The `meta` dict shared by all four tasks: fixed source, the issue key
as id, the browse URL built from the key, and the task label. -/
def metaFor (key task : String) : EntryMeta :=
  { source := "Apache Jira", id := key, url := jiraUrl key, task := task }

/-- Task 1 of `format_for_llm`: issue classification. -/
def classificationEntry (i : Issue) : Entry :=
  { meta := metaFor (keyOf i) "classification",
    instruction := "Analyze the issue description and discussion to determine the current status and priority.",
    input := "Title: " ++ summaryOf i ++ "\nDescription: " ++ descriptionOf i
      ++ "\nComments: " ++ commentsTextOf i,
    output := "Status: " ++ statusOf i ++ "\nPriority: " ++ priorityOf i }

/-- The snippet `description[:150] + "..."` when the cleaned description exceeds 150
characters, otherwise the description itself. -/
def descSnippet (d : String) : String :=
  if d.length > 150 then String.mk (d.data.take 150) ++ "..." else d

/-- The `summary_output` local of `format_for_llm`: the cleaned summary
followed by a period, extended with a space and the description snippet
when the cleaned description is truthy and not the placeholder. -/
def summaryOutputOf (i : Issue) : String :=
  if descriptionOf i ≠ "" ∧ descriptionOf i ≠ "No description provided"
  then summaryOf i ++ "." ++ (" " ++ descSnippet (descriptionOf i))
  else summaryOf i ++ "."

/-- Task 2 of `format_for_llm`: issue summarization. -/
def summarizationEntry (i : Issue) : Entry :=
  { meta := metaFor (keyOf i) "summarization",
    instruction := "Generate a concise summary of this Jira issue in 1-2 sentences.",
    input := "Issue Key: " ++ keyOf i ++ "\nTitle: " ++ summaryOf i
      ++ "\nDescription: " ++ descriptionOf i ++ "\nStatus: " ++ statusOf i
      ++ "\nPriority: " ++ priorityOf i,
    output := "Summary: " ++ summaryOutputOf i }

/-- Task 3 of `format_for_llm`: question answering. -/
def qnaEntry (i : Issue) : Entry :=
  { meta := metaFor (keyOf i) "qna",
    instruction := "Answer the question based on the Jira issue information and discussion.",
    input := "Question: What is the current status and priority of issue "
      ++ keyOf i ++ " regarding \x27" ++ summaryOf i
      ++ "\x27?\n\nIssue Details:\nTitle: " ++ summaryOf i
      ++ "\nDescription: " ++ descriptionOf i ++ "\nComments: "
      ++ commentsTextOf i,
    output := "Answer: Issue " ++ keyOf i ++ " is currently marked as \x27"
      ++ statusOf i ++ "\x27 with a priority level of \x27" ++ priorityOf i
      ++ "\x27. The issue is assigned to " ++ assigneeOf i ++ ". Labels: "
      ++ labelsTextOf i ++ "." }

/-- Task 4 of `format_for_llm`: root cause analysis (emitted only when at
least one comment survived cleaning). -/
def rootCauseEntry (i : Issue) : Entry :=
  { meta := metaFor (keyOf i) "root_cause_analysis",
    instruction := "Based on the issue description and team discussion, identify the root cause and proposed solution.",
    input := "Issue: " ++ keyOf i ++ "\nTitle: " ++ summaryOf i
      ++ "\nDescription: " ++ descriptionOf i ++ "\nTeam Discussion: "
      ++ commentsTextOf i,
    output := "The issue \x27" ++ summaryOf i
      ++ "\x27 was analyzed and is currently " ++ statusOf i ++ ". Priority: "
      ++ priorityOf i
      ++ ". The team discussion provides context on resolution approaches." }

/-- Model of `processor.format_for_llm`: the classification, summarization and qna
examples, plus the root-cause-analysis example when `comments_list` is
non-empty.  The embedded record types make the `except` branch (which
returns `[]` on an unexpected exception) unreachable. -/
def format_for_llm (issue : Issue) : List Entry :=
  if 0 < (commentsListOf issue).length
  then [classificationEntry issue, summarizationEntry issue, qnaEntry issue,
    rootCauseEntry issue]
  else [classificationEntry issue, summarizationEntry issue, qnaEntry issue]

/-- Python truthiness test `if not issue_key` in the processor's main
loop: an issue participates only when its key is present and non-empty. -/
def hasKey (i : Issue) : Bool :=
  match i.key with
  | none => false
  | some k => !(k == "")

/-- The processor's per-file issue loop, threading the `unique_ids` set:
keyless issues are skipped, already-seen keys are skipped, otherwise the
issue's examples are appended and its key recorded. -/
def processIssuesSt : List String → List Issue → List Entry × List String
  | seen, [] => ([], seen)
  | seen, i :: rest =>
    match i.key with
    | none => processIssuesSt seen rest
    | some k =>
      if k = "" then processIssuesSt seen rest
      else if seen.contains k then processIssuesSt seen rest
      else
        ((format_for_llm i ++ (processIssuesSt (k :: seen) rest).1),
          (processIssuesSt (k :: seen) rest).2)

/-- The processor's file loop: files are handled in order, sharing the
`unique_ids` set across files. -/
def processFilesSt : List String → List (List Issue) → List Entry × List String
  | seen, [] => ([], seen)
  | seen, f :: fs =>
    ((processIssuesSt seen f).1 ++
        (processFilesSt (processIssuesSt seen f).2 fs).1,
      (processFilesSt (processIssuesSt seen f).2 fs).2)

/-- Model of `sorted(os.listdir(DATA_DIR))` on the page files: lexicographic
filename order. -/
def sortedFiles (files : List (String × List Issue)) :
    List (String × List Issue) :=
  files.mergeSort (fun a b => a.1 ≤ b.1)

/-- Model of `processor.main` modulo file I/O: the examples written to the output file,
given the parsed page files (filename and issue list). -/
def processor_main (files : List (String × List Issue)) : List Entry :=
  (processFilesSt [] ((sortedFiles files).map (fun f => f.2))).1

/-- The key under which the main loop deduplicates (`""` never occurs for
kept issues, since keyless and empty-key issues are filtered first). -/
def keptKey (i : Issue) : String := i.key.getD ""

/-- Specification-side first-occurrence deduplication over a flat issue
stream. -/
def dedupFirst : List String → List Issue → List Issue
  | _, [] => []
  | seen, i :: rest =>
    if seen.contains (keptKey i) then dedupFirst seen rest
    else i :: dedupFirst (keptKey i :: seen) rest

/-- The set of keys seen after scanning a flat issue stream. -/
def seenAfter : List String → List Issue → List String
  | seen, [] => seen
  | seen, i :: rest =>
    if seen.contains (keptKey i) then seenAfter seen rest
    else seenAfter (keptKey i :: seen) rest

/-- All issues of all page files, in lexicographic filename order and
in-file order, restricted to those with a usable key. -/
def issuesInOrder (files : List (String × List Issue)) : List Issue :=
  (((sortedFiles files).map (fun f => f.2)).flatten).filter hasKey

/-- Fields with a summary, no description and no comments. -/
def cSimpleFields : IssueFields :=
  { summary := some "Fix", description := none, statusName := none,
    priorityName := none, assignee := none, labels := [], created := none,
    comments := [] }

/-- An issue with a summary, no description and no comments, as the
counterexamples below exercise. -/
def cSimple : Issue := { key := some "KAFKA-1", fields := some cSimpleFields }

/-- Fields whose description has exactly 151 characters. -/
def cLongFields : IssueFields :=
  { summary := some "Big",
    description := some (String.mk (List.replicate 151 'a')),
    statusName := none, priorityName := none, assignee := none,
    labels := [], created := none, comments := [] }

/-- An issue whose cleaned description has exactly 151 characters. -/
def cLong : Issue := { key := some "KAFKA-2", fields := some cLongFields }

/-- Fields with a real short description. -/
def cMidFields : IssueFields :=
  { summary := some "Mid", description := some "short desc",
    statusName := none, priorityName := none, assignee := none,
    labels := [], created := none, comments := [] }

/-- An issue with a real short description. -/
def cMid : Issue := { key := some "KAFKA-3", fields := some cMidFields }

/-- The `scraper.py` configured project list. -/
def PROJECTS : List String := ["KAFKA", "ZOOKEEPER", "CASSANDRA"]

def RESULTS_PER_PAGE : Nat := 50

def MAX_RESULTS_PER_PROJECT : Nat := 200

/-- The page-file path `os.path.join(DATA_DIR, f"{project}_page_{page_num}.json")`. -/
def pageFilename (project : String) (pageNum : Nat) : String :=
  "data/" ++ project ++ "_page_" ++ toString pageNum ++ ".json"

/-- The data directory as a map from page-file name to saved content
(`none` = file absent). -/
def FS : Type := String → Option (List Issue)

/-- Model of `scraper.is_page_scraped`: the page file exists on disk. -/
def is_page_scraped (fs : FS) (project : String) (pageNum : Nat) : Bool :=
  (fs (pageFilename project pageNum)).isSome

/-- Model of `scraper.save_page`: write the page file. -/
def save_page (fs : FS) (project : String) (pageNum : Nat)
    (data : List Issue) : FS :=
  fun name => if name = pageFilename project pageNum then some data else fs name

/-- The per-issue validation of the scraper's fetch loop: both `key` and
`fields` must be present and truthy. -/
def scraperValid (i : Issue) : Bool :=
  match i.key with
  | none => false
  | some k => if k = "" then false else i.fields.isSome

/-- Outcome of one `session.get` call, as the scraper's exception handling
distinguishes them. -/
inductive FetchResult where
  | ok (issues : List Issue)
  | timeout
  | rateLimited
  | httpError
  | badJson
deriving DecidableEq

/-- The `while start_at < MAX_RESULTS_PER_PROJECT` loop of
`scraper.scrape_project`, with explicit fuel (the Python loop can spin
forever on repeated timeouts) and a count of network fetches performed.
Returns the final data directory and the fetch count. -/
def scrape_loop (fetch : Nat → FetchResult) (project : String) :
    Nat → Nat → Nat → FS → Nat → FS × Nat
  | 0, _, _, fs, nf => (fs, nf)
  | fuel + 1, startAt, pageNum, fs, nf =>
    if startAt < MAX_RESULTS_PER_PROJECT then
      if is_page_scraped fs project pageNum then
        scrape_loop fetch project fuel (startAt + RESULTS_PER_PAGE)
          (pageNum + 1) fs nf
      else
        match fetch startAt with
        | FetchResult.ok issues =>
          if issues.isEmpty then (fs, nf + 1)
          else
            if (issues.filter scraperValid).isEmpty then
              scrape_loop fetch project fuel (startAt + RESULTS_PER_PAGE)
                (pageNum + 1) fs (nf + 1)
            else
              scrape_loop fetch project fuel (startAt + issues.length)
                (pageNum + 1)
                (save_page fs project pageNum (issues.filter scraperValid))
                (nf + 1)
        | FetchResult.timeout =>
          scrape_loop fetch project fuel startAt pageNum fs (nf + 1)
        | FetchResult.rateLimited =>
          scrape_loop fetch project fuel startAt pageNum fs (nf + 1)
        | FetchResult.httpError => (fs, nf + 1)
        | FetchResult.badJson => (fs, nf + 1)
    else (fs, nf)

/-- Model of `scraper.scrape_project`: run the loop from offset 0, page 0. -/
def scrape_project (fetch : Nat → FetchResult) (project : String)
    (fuel : Nat) (fs : FS) : FS × Nat :=
  scrape_loop fetch project fuel 0 0 fs 0

/-- Model of `scraper.main`: scrape each configured project in order, accumulating
the data directory state and the total number of fetches. -/
def scraper_main (fetch : String → Nat → FetchResult) (fuel : Nat)
    (fs : FS) : FS × Nat :=
  PROJECTS.foldl
    (fun acc project =>
      ((scrape_project (fetch project) project fuel acc.1).1,
        acc.2 + (scrape_project (fetch project) project fuel acc.1).2))
    (fs, 0)

/-- A fully populated data directory. -/
def cFS : FS := fun _ => some []

/-- A fetch oracle (never reached in the witness run). -/
def cFetch : String → Nat → FetchResult := fun _ _ => FetchResult.httpError

/-- The environment `run_pipeline.main` observes: whether each script file
exists in the working directory, and the exit status each child process
would return. -/
structure PipeEnv where
  scraperScriptPresent : Bool
  processorScriptPresent : Bool
  scraperExit : Nat
  processorExit : Nat

/-- Model of `run_pipeline.run_command`: true iff the script was found and the
child process exited with status 0 (`subprocess.run(..., check=True)`
raises `CalledProcessError` on any non-zero status). -/
def run_command (found : Bool) (exitCode : Nat) : Bool :=
  if found then exitCode == 0 else false

/-- Model of `run_pipeline.main`: returns the runner's own exit status and whether
the Processor child was launched. -/
def pipeline_main (env : PipeEnv) : Nat × Bool :=
  if env.scraperScriptPresent = false then (1, false)
  else if env.processorScriptPresent = false then (1, false)
  else if run_command true env.scraperExit = false then (1, false)
  else if run_command true env.processorExit = false then (1, true)
  else (0, true)

/-- A run in which the scraper child fails with exit status 2. -/
def cPipeEnv : PipeEnv :=
  { scraperScriptPresent := true, processorScriptPresent := true,
    scraperExit := 2, processorExit := 0 }

/-- The canonical task labels of `test_validation.py`. -/
def VALID_TASKS : List String :=
  ["classification", "summarization", "qna", "root_cause_analysis"]

/-- A parsed JSONL entry's `meta` object as the validator probes it:
each required key present or absent. -/
structure VMeta where
  source : Option String
  id : Option String
  url : Option String
  task : Option String
deriving DecidableEq

/-- A parsed JSONL entry as the validator probes it. -/
structure VEntry where
  meta : Option VMeta
  instruction : Option String
  input : Option String
  output : Option String
deriving DecidableEq

/-- One line of the output file: either invalid JSON or a parsed entry. -/
inductive VLine where
  | badJson
  | parsed (e : VEntry)
deriving DecidableEq

/-- Errors recorded for the `REQUIRED_FIELDS` loop: one per missing
top-level field among meta, instruction, input, output. -/
def missingTopCount (e : VEntry) : Nat :=
  (if e.meta.isNone then 1 else 0) + (if e.instruction.isNone then 1 else 0)
    + (if e.input.isNone then 1 else 0) + (if e.output.isNone then 1 else 0)

/-- Errors recorded for the `REQUIRED_META_FIELDS` loop: one per missing
meta field among source, id, url, task. -/
def missingMetaCount (m : VMeta) : Nat :=
  (if m.source.isNone then 1 else 0) + (if m.id.isNone then 1 else 0)
    + (if m.url.isNone then 1 else 0) + (if m.task.isNone then 1 else 0)

/-- The task-type warning of `if task and task not in VALID_TASKS`: a
falsy (absent or empty) task is silently passed over. -/
def taskWarnOf (m : VMeta) : Nat :=
  match m.task with
  | none => 0
  | some t => if t = "" then 0 else if VALID_TASKS.contains t then 0 else 1

/-- The tally increment of `elif task: task_counts[task] += 1`. -/
def taskIncOf (m : VMeta) : Option String :=
  match m.task with
  | none => none
  | some t =>
    if t = "" then none
    else if VALID_TASKS.contains t then some t else none

/-- The empty-field warning `if field in entry and not field.strip()`. -/
def blankWarnOf : Option String → Nat
  | none => 0
  | some s => if pyStripStr s = "" then 1 else 0

/-- Errors one line contributes: 1 for unparsable JSON (the line is then
skipped), otherwise the missing-top-level-field errors plus, when `meta`
is present, the missing-meta-field errors. -/
def lineErrors : VLine → Nat
  | VLine.badJson => 1
  | VLine.parsed e =>
    missingTopCount e +
      (match e.meta with
       | none => 0
       | some m => missingMetaCount m)

/-- Warnings one line contributes: the unknown-task warning (when `meta`
is present) plus the blank-field warnings for instruction, input and
output. -/
def lineWarnings : VLine → Nat
  | VLine.badJson => 0
  | VLine.parsed e =>
    (match e.meta with
     | none => 0
     | some m => taskWarnOf m)
      + blankWarnOf e.instruction + blankWarnOf e.input
      + blankWarnOf e.output

/-- The increment `task_counts[task] += 1` on the dict keyed by the four valid tasks. -/
def bumpCount (counts : List (String × Nat)) (t : String) :
    List (String × Nat) :=
  counts.map fun p => if p.1 = t then (p.1, p.2 + 1) else p

/-- The per-line update of the task tallies. -/
def lineCounts (counts : List (String × Nat)) : VLine → List (String × Nat)
  | VLine.badJson => counts
  | VLine.parsed e =>
    match e.meta with
    | none => counts
    | some m =>
      match taskIncOf m with
      | none => counts
      | some t => bumpCount counts t

/-- The initial task tallies, zero for each of the four valid tasks. -/
def initCounts : List (String × Nat) := VALID_TASKS.map (fun t => (t, 0))

/-- The validator's line scan, accumulating errors, warnings and task
tallies. -/
def validateAux :
    Nat → Nat → List (String × Nat) → List VLine →
      Nat × Nat × List (String × Nat)
  | errs, warns, counts, [] => (errs, warns, counts)
  | errs, warns, counts, line :: rest =>
    validateAux (errs + lineErrors line) (warns + lineWarnings line)
      (lineCounts counts line) rest

/-- The validator's report. -/
structure VResult where
  ok : Bool
  errors : Nat
  warnings : Nat
  counts : List (String × Nat)
deriving DecidableEq

/-- Model of `test_validation.validate_jsonl` on an existing output file: scan all
lines, then return `False` iff at least one error was recorded (warnings
never flip the verdict). -/
def validate_jsonl (lines : List VLine) : VResult :=
  { ok := (validateAux 0 0 initCounts lines).1 == 0,
    errors := (validateAux 0 0 initCounts lines).1,
    warnings := (validateAux 0 0 initCounts lines).2.1,
    counts := (validateAux 0 0 initCounts lines).2.2 }

/-- A complete entry with an arbitrary (possibly blank) instruction. -/
def blankInstrEntry (m : VMeta) (s : String) : VEntry :=
  { meta := some m, instruction := some s, input := some "x",
    output := some "y" }

/-- A complete meta object with a blank instruction next to it, used to
exercise all three conjuncts of the verdict theorem. -/
def cCompleteMeta : VMeta :=
  { source := some "Apache Jira", id := some "K", url := some "u",
    task := some "classification" }

/-- An entry missing only its `output` field. -/
def cNoOutputEntry : VEntry :=
  { meta := some cCompleteMeta, instruction := some "a", input := some "b",
    output := none }

/-- Lookup in the task-tally dict. -/
def lookupCount : List (String × Nat) → String → Nat
  | [], _ => 0
  | p :: rest, t => if p.1 = t then p.2 else lookupCount rest t

/-- A meta object whose `task` is present but the empty string. -/
def cEmptyTaskMeta : VMeta :=
  { source := some "Apache Jira", id := some "K", url := some "u",
    task := some "" }

/-- A complete entry carrying the empty-string task. -/
def cEmptyTaskEntry : VEntry :=
  { meta := some cEmptyTaskMeta, instruction := some "a", input := some "b",
    output := some "c" }

/-- A complete entry with a canonical task value. -/
def cGoodTaskMeta : VMeta :=
  { source := some "Apache Jira", id := some "K", url := some "u",
    task := some "qna" }

def cGoodTaskEntry : VEntry :=
  { meta := some cGoodTaskMeta, instruction := some "a", input := some "b",
    output := some "c" }

/-- A complete entry with an unrecognized task value. -/
def cBadTaskMeta : VMeta :=
  { source := some "Apache Jira", id := some "K", url := some "u",
    task := some "weird" }

def cBadTaskEntry : VEntry :=
  { meta := some cBadTaskMeta, instruction := some "a", input := some "b",
    output := some "c" }

/-- A Processor `meta` object as the Validator re-parses it from the
output file: every field present. -/
def metaToVMeta (m : EntryMeta) : VMeta :=
  { source := some m.source, id := some m.id, url := some m.url,
    task := some m.task }

/-- A Processor example as the Validator re-parses it: every field
present. -/
def entryToVEntry (e : Entry) : VEntry :=
  { meta := some (metaToVMeta e.meta), instruction := some e.instruction,
    input := some e.input, output := some e.output }

def entryToVLine (e : Entry) : VLine := VLine.parsed (entryToVEntry e)

theorem collapseWS_nil (b : Bool) : collapseWS b [] = [] := by
  cases b <;> rfl

theorem collapseWS_false_ws {c : Char} (hc : isWS c = true) (rest : List Char) :
    collapseWS false (c :: rest) = ' ' :: collapseWS true rest := by
  simp [collapseWS, hc]

theorem collapseWS_false_nonws {c : Char} (hc : isWS c = false) (rest : List Char) :
    collapseWS false (c :: rest) = c :: collapseWS false rest := by
  simp [collapseWS, hc]

theorem collapseWS_true_ws {c : Char} (hc : isWS c = true) (rest : List Char) :
    collapseWS true (c :: rest) = collapseWS true rest := by
  simp [collapseWS, hc]

theorem collapseWS_true_nonws {c : Char} (hc : isWS c = false) (rest : List Char) :
    collapseWS true (c :: rest) = c :: collapseWS false rest := by
  simp [collapseWS, hc]

theorem tokensAux_acc_nil {acc : List Char} (h : acc ≠ []) :
    tokensAux acc [] = [acc.reverse] := by
  simp [tokensAux, h]

theorem tokensAux_ws_nilacc {c : Char} (hc : isWS c = true) (rest : List Char) :
    tokensAux [] (c :: rest) = tokensAux [] rest := by
  simp [tokensAux, hc]

theorem tokensAux_ws_acc {acc : List Char} {c : Char} (hc : isWS c = true)
    (h : acc ≠ []) (rest : List Char) :
    tokensAux acc (c :: rest) = acc.reverse :: tokensAux [] rest := by
  simp [tokensAux, hc, h]

theorem tokensAux_nonws {acc : List Char} {c : Char} (hc : isWS c = false)
    (rest : List Char) :
    tokensAux acc (c :: rest) = tokensAux (c :: acc) rest := by
  simp [tokensAux, hc]

theorem dropWhile_head_false {p : Char → Bool} :
    ∀ {l : List Char} {c : Char} {cs : List Char},
      l.dropWhile p = c :: cs → p c = false := by
  intro l
  induction l with
  | nil => intro c cs h; simp [List.dropWhile] at h
  | cons a as ih =>
    intro c cs h
    rw [List.dropWhile_cons] at h
    cases ha : p a with
    | true => rw [ha, if_pos rfl] at h; exact ih h
    | false =>
      rw [ha] at h
      simp only [Bool.false_eq_true, if_false, List.cons.injEq] at h
      rw [← h.1]
      exact ha

theorem length_dropWhile_le (p : Char → Bool) (l : List Char) :
    (l.dropWhile p).length ≤ l.length := by
  induction l with
  | nil => simp [List.dropWhile]
  | cons a as ih =>
    rw [List.dropWhile_cons]
    cases ha : p a with
    | true => simp only [if_pos rfl]; exact Nat.le_succ_of_le ih
    | false => simp

theorem dropWhile_of_all_false {p : Char → Bool} {l : List Char}
    (h : ∀ c ∈ l, p c = false) : l.dropWhile p = l := by
  cases l with
  | nil => rfl
  | cons a as =>
    rw [List.dropWhile_cons, h a (by simp)]
    simp

theorem dropWhile_append_of_ne_nil {p : Char → Bool} :
    ∀ {x : List Char} (y : List Char), x.dropWhile p ≠ [] →
      (x ++ y).dropWhile p = x.dropWhile p ++ y := by
  intro x
  induction x with
  | nil => intro y h; simp [List.dropWhile] at h
  | cons a as ih =>
    intro y h
    rw [List.dropWhile_cons] at h
    rw [List.cons_append, List.dropWhile_cons, List.dropWhile_cons]
    cases ha : p a with
    | true =>
      rw [ha] at h
      simp only [if_pos rfl] at h ⊢
      exact ih y h
    | false => simp

theorem dropWhile_ne_nil_of_mem {p : Char → Bool} {l : List Char} {c : Char}
    (hc : c ∈ l) (hpc : p c = false) : l.dropWhile p ≠ [] := by
  intro h
  have := (List.dropWhile_eq_nil_iff).mp h c hc
  rw [hpc] at this
  exact Bool.noConfusion this

theorem pyStrip_eq_stripTrail (l : List Char) :
    pyStrip l = stripTrail (l.dropWhile isWS) := rfl

theorem stripTrail_of_all_nonWS {t : List Char}
    (h : ∀ c ∈ t, isWS c = false) : stripTrail t = t := by
  unfold stripTrail
  rw [dropWhile_of_all_false (fun c hc => h c (List.mem_reverse.mp hc))]
  exact List.reverse_reverse t

theorem stripTrail_append_space {t : List Char}
    (h : ∀ c ∈ t, isWS c = false) :
    stripTrail (t ++ [' ']) = t := by
  unfold stripTrail
  rw [List.reverse_append, List.reverse_singleton, List.singleton_append,
    List.dropWhile_cons]
  rw [show isWS ' ' = true from by decide, if_pos rfl]
  rw [dropWhile_of_all_false (fun c hc => h c (List.mem_reverse.mp hc))]
  exact List.reverse_reverse t

theorem stripTrail_append {a b : List Char} {c : Char}
    (hc : c ∈ b) (hpc : isWS c = false) :
    stripTrail (a ++ b) = a ++ stripTrail b := by
  unfold stripTrail
  rw [List.reverse_append]
  have hne : b.reverse.dropWhile isWS ≠ [] :=
    dropWhile_ne_nil_of_mem (List.mem_reverse.mpr hc) hpc
  rw [dropWhile_append_of_ne_nil a.reverse hne, List.reverse_append,
    List.reverse_reverse]

theorem collapseWS_true_eq : ∀ l : List Char,
    collapseWS true l = collapseWS false (l.dropWhile isWS)
  | [] => rfl
  | c :: rest => by
    rw [List.dropWhile_cons]
    cases hc : isWS c with
    | true =>
      rw [collapseWS_true_ws hc, if_pos rfl]
      exact collapseWS_true_eq rest
    | false =>
      rw [collapseWS_true_nonws hc]
      simp only [Bool.false_eq_true, if_false]
      rw [collapseWS_false_nonws hc]

theorem dropWhile_collapseWS (l : List Char) :
    (collapseWS false l).dropWhile isWS = collapseWS false (l.dropWhile isWS) := by
  cases l with
  | nil => rfl
  | cons c rest =>
    rw [List.dropWhile_cons]
    cases hc : isWS c with
    | true =>
      rw [collapseWS_false_ws hc, if_pos rfl, List.dropWhile_cons]
      rw [show isWS ' ' = true from by decide, if_pos rfl]
      rw [collapseWS_true_eq]
      cases hr : rest.dropWhile isWS with
      | nil => rw [collapseWS_nil, List.dropWhile]
      | cons d r' =>
        have hd : isWS d = false := dropWhile_head_false hr
        rw [collapseWS_false_nonws hd, List.dropWhile_cons, hd]
        simp
    | false =>
      rw [collapseWS_false_nonws hc, List.dropWhile_cons, hc]
      simp only [Bool.false_eq_true, if_false]
      rw [collapseWS_false_nonws hc]

theorem tokensAux_dropWhile (l : List Char) :
    tokensAux [] (l.dropWhile isWS) = tokensAux [] l := by
  induction l with
  | nil => rfl
  | cons c rest ih =>
    rw [List.dropWhile_cons]
    cases hc : isWS c with
    | true => rw [if_pos rfl, ih, tokensAux_ws_nilacc hc]
    | false => simp only [Bool.false_eq_true, if_false]

theorem tokensAux_ne_nil :
    ∀ (l acc : List Char), acc ≠ [] → tokensAux acc l ≠ []
  | [], acc, h => by rw [tokensAux_acc_nil h]; simp
  | c :: rest, acc, h => by
    cases hc : isWS c with
    | true => rw [tokensAux_ws_acc hc h]; simp
    | false =>
      rw [tokensAux_nonws hc]
      exact tokensAux_ne_nil rest (c :: acc) (by simp)

theorem intercalate_space_single (a : List Char) :
    List.intercalate [' '] [a] = a := by
  simp [List.intercalate, List.intersperse]

theorem intercalate_space_cons (a b : List Char) (L : List (List Char)) :
    List.intercalate [' '] (a :: b :: L) =
      a ++ ' ' :: List.intercalate [' '] (b :: L) := by
  simp [List.intercalate, List.intersperse]

theorem mainG : ∀ (l t : List Char), (∀ c ∈ t, isWS c = false) → t ≠ [] →
    stripTrail (t ++ collapseWS false l) =
      List.intercalate [' '] (tokensAux t.reverse l)
  | [], t, ht, htne => by
    rw [collapseWS_nil, List.append_nil, stripTrail_of_all_nonWS ht,
      tokensAux_acc_nil (by simpa using htne), List.reverse_reverse,
      intercalate_space_single]
  | c :: rest, t, ht, htne => by
    cases hc : isWS c with
    | true =>
      rw [collapseWS_false_ws hc rest, collapseWS_true_eq,
        tokensAux_ws_acc hc (by simpa using htne), List.reverse_reverse,
        ← tokensAux_dropWhile rest]
      cases hr : rest.dropWhile isWS with
      | nil =>
        rw [collapseWS_nil,
          show tokensAux ([] : List Char) [] = [] from rfl,
          intercalate_space_single, stripTrail_append_space ht]
      | cons d r' =>
        have hd : isWS d = false := dropWhile_head_false hr
        have hrec := mainG r' [d] (by intro x hx; simp at hx; rw [hx]; exact hd)
          (by simp)
        rw [List.reverse_singleton] at hrec
        rw [collapseWS_false_nonws hd]
        have hmem : d ∈ ' ' :: d :: collapseWS false r' := by simp
        rw [show t ++ ' ' :: d :: collapseWS false r'
              = t ++ (' ' :: d :: collapseWS false r') from rfl,
          stripTrail_append hmem hd]
        have hsp : stripTrail (' ' :: d :: collapseWS false r')
            = ' ' :: stripTrail (d :: collapseWS false r') := by
          have hmem2 : d ∈ d :: collapseWS false r' := by simp
          rw [show (' ' :: d :: collapseWS false r')
                = [' '] ++ (d :: collapseWS false r') from rfl,
            stripTrail_append hmem2 hd]
          rfl
        rw [hsp, show (d :: collapseWS false r') = [d] ++ collapseWS false r'
          from rfl, hrec, tokensAux_nonws hd]
        cases hts : tokensAux [d] r' with
        | nil => exact absurd hts (tokensAux_ne_nil r' [d] (by simp))
        | cons u us => rw [intercalate_space_cons]
    | false =>
      have hrec := mainG rest (t ++ [c])
        (by intro x hx
            rcases List.mem_append.mp hx with h1 | h2
            · exact ht x h1
            · simp at h2; rw [h2]; exact hc)
        (by simp)
      rw [collapseWS_false_nonws hc,
        show t ++ c :: collapseWS false rest
          = (t ++ [c]) ++ collapseWS false rest from by simp, hrec,
        tokensAux_nonws hc]
      congr 1
      simp
termination_by l _ _ _ => l.length
decreasing_by
  · simp only [List.length_cons]
    omega
  · have h1 := length_dropWhile_le isWS rest
    rw [hr] at h1
    simp only [List.length_cons] at h1 ⊢
    omega

theorem clean_eq_tokens (l : List Char) :
    pyStrip (collapseWS false l) = List.intercalate [' '] (tokensAux [] l) := by
  rw [pyStrip_eq_stripTrail, dropWhile_collapseWS, ← tokensAux_dropWhile l]
  cases hr : l.dropWhile isWS with
  | nil => rfl
  | cons d r' =>
    have hd : isWS d = false := dropWhile_head_false hr
    have hrec := mainG r' [d] (by intro x hx; simp at hx; rw [hx]; exact hd)
      (by simp)
    rw [List.reverse_singleton] at hrec
    rw [collapseWS_false_nonws hd,
      show (d :: collapseWS false r') = [d] ++ collapseWS false r' from rfl,
      hrec, tokensAux_nonws hd]

theorem commentLine_eq_none (c : Comment) :
    commentLine c = none ↔ clean_text (c.body.getD "") = "" := by
  unfold commentLine
  by_cases h : clean_text (c.body.getD "") = ""
  · simp [h]
  · simp [h]

theorem commentsList_pos_iff (i : Issue) :
    0 < (commentsListOf i).length ↔
      ((fieldsOf i).comments.any fun c => clean_text (c.body.getD "") != "")
        = true := by
  rw [List.length_pos, List.any_eq_true]
  unfold commentsListOf
  rw [Ne, List.filterMap_eq_nil_iff]
  push_neg
  constructor
  · intro ⟨a, ha, hne⟩
    refine ⟨a, ha, ?_⟩
    simp only [bne_iff_ne, Ne]
    intro hb
    exact hne ((commentLine_eq_none a).mpr hb)
  · intro ⟨a, ha, hb⟩
    refine ⟨a, ha, ?_⟩
    intro hnone
    have hcl := (commentLine_eq_none a).mp hnone
    simp only [bne_iff_ne, Ne] at hb
    exact hb hcl

/-- C3: `clean_text` collapses every whitespace run to a single space and
trims both ends: it equals the spec-side normal form (maximal
non-whitespace runs joined by single spaces) on every string, cleans the
spec's example `"Hello\n\n  world  \t!"` to `"Hello world !"`, and cleans
the empty string to the empty string. -/
theorem c3_clean_text_collapses_runs :
    clean_text "Hello\n\n  world  \t!" = "Hello world !" ∧
    clean_text "" = "" ∧
    ∀ s : String, clean_text s = specClean s := by
  refine ⟨by decide, rfl, fun s => ?_⟩
  by_cases hs : s = ""
  · subst hs; rfl
  · unfold clean_text specClean wsTokens
    rw [if_neg hs, clean_eq_tokens]

/-- C1: `format_for_llm` emits exactly the classification, summarization
and qna examples when no comment of the issue has a non-empty cleaned
body, and exactly those three plus root_cause_analysis when at least one
comment does. -/
theorem c1_task_count (i : Issue) :
    (format_for_llm i).map (fun e => e.meta.task) =
      if (fieldsOf i).comments.any (fun c => clean_text (c.body.getD "") != "")
      then ["classification", "summarization", "qna", "root_cause_analysis"]
      else ["classification", "summarization", "qna"] := by
  unfold format_for_llm
  by_cases h : ((fieldsOf i).comments.any
      fun c => clean_text (c.body.getD "") != "") = true
  · rw [if_pos ((commentsList_pos_iff i).mpr h), if_pos h]
    rfl
  · rw [if_neg (fun hp => h ((commentsList_pos_iff i).mp hp)), if_neg h]
    rfl

theorem processIssuesSt_spec : ∀ (issues : List Issue) (seen : List String),
    processIssuesSt seen issues =
      ((dedupFirst seen (issues.filter hasKey)).flatMap format_for_llm,
        seenAfter seen (issues.filter hasKey))
  | [], seen => rfl
  | i :: rest, seen => by
    cases hk : i.key with
    | none =>
      have hhk : hasKey i = false := by simp [hasKey, hk]
      simp only [processIssuesSt, hk, List.filter_cons, hhk]
      exact processIssuesSt_spec rest seen
    | some k =>
      by_cases hke : k = ""
      · have hhk : hasKey i = false := by simp [hasKey, hk, hke]
        simp only [processIssuesSt, hk, if_pos hke, List.filter_cons, hhk]
        exact processIssuesSt_spec rest seen
      · have hhk : hasKey i = true := by simp [hasKey, hk, hke]
        have hkk : keptKey i = k := by simp [keptKey, hk]
        have hfil : (i :: rest).filter hasKey = i :: rest.filter hasKey := by
          rw [List.filter_cons, if_pos hhk]
        rw [hfil]
        simp only [processIssuesSt, hk]
        rw [if_neg hke]
        simp only [dedupFirst, seenAfter, hkk]
        by_cases hseen : seen.contains k = true
        · rw [if_pos hseen, if_pos hseen, if_pos hseen]
          exact processIssuesSt_spec rest seen
        · rw [if_neg hseen, if_neg hseen, if_neg hseen,
            processIssuesSt_spec rest (k :: seen)]
          simp [List.flatMap_cons]

theorem dedupFirst_append (a b : List Issue) : ∀ seen : List String,
    dedupFirst seen (a ++ b) =
      dedupFirst seen a ++ dedupFirst (seenAfter seen a) b := by
  induction a with
  | nil => intro seen; rfl
  | cons i rest ih =>
    intro seen
    rw [List.cons_append]
    simp only [dedupFirst, seenAfter]
    by_cases h : seen.contains (keptKey i) = true
    · rw [if_pos h, if_pos h, if_pos h, ih]
    · rw [if_neg h, if_neg h, if_neg h, List.cons_append, ih]

theorem seenAfter_append (a b : List Issue) : ∀ seen : List String,
    seenAfter seen (a ++ b) = seenAfter (seenAfter seen a) b := by
  induction a with
  | nil => intro seen; rfl
  | cons i rest ih =>
    intro seen
    rw [List.cons_append]
    simp only [seenAfter]
    by_cases h : seen.contains (keptKey i) = true
    · rw [if_pos h, if_pos h, ih]
    · rw [if_neg h, if_neg h, ih]

theorem processFilesSt_spec : ∀ (fs : List (List Issue)) (seen : List String),
    processFilesSt seen fs =
      ((dedupFirst seen (fs.flatten.filter hasKey)).flatMap format_for_llm,
        seenAfter seen (fs.flatten.filter hasKey))
  | [], seen => rfl
  | f :: fs, seen => by
    unfold processFilesSt
    rw [processIssuesSt_spec f seen, processFilesSt_spec fs
      (seenAfter seen (f.filter hasKey))]
    simp only [List.flatten_cons, List.filter_append]
    rw [dedupFirst_append, seenAfter_append, List.flatMap_append]

theorem processor_main_eq (files : List (String × List Issue)) :
    processor_main files =
      (dedupFirst [] (issuesInOrder files)).flatMap format_for_llm := by
  unfold processor_main issuesInOrder
  rw [processFilesSt_spec]

theorem format_id (i : Issue) : ∀ e ∈ format_for_llm i, e.meta.id = keyOf i := by
  intro e he
  unfold format_for_llm at he
  by_cases h : 0 < (commentsListOf i).length
  · rw [if_pos h] at he
    simp only [List.mem_cons, List.not_mem_nil, or_false] at he
    rcases he with h1 | h1 | h1 | h1 <;> (subst h1; rfl)
  · rw [if_neg h] at he
    simp only [List.mem_cons, List.not_mem_nil, or_false] at he
    rcases he with h1 | h1 | h1 <;> (subst h1; rfl)

theorem format_tasks_nodup (i : Issue) :
    ((format_for_llm i).map fun e => e.meta.task).Pairwise
      (fun a b => a ≠ b) := by
  unfold format_for_llm
  by_cases h : 0 < (commentsListOf i).length
  · rw [if_pos h]
    show (["classification", "summarization", "qna",
      "root_cause_analysis"] : List String).Pairwise (fun a b => a ≠ b)
    decide
  · rw [if_neg h]
    show (["classification", "summarization",
      "qna"] : List String).Pairwise (fun a b => a ≠ b)
    decide

theorem format_pairs_pairwise (i : Issue) :
    ((format_for_llm i).map fun e => (e.meta.id, e.meta.task)).Pairwise
      (fun a b => a ≠ b) := by
  rw [List.pairwise_map]
  have ht := (List.pairwise_map).mp (format_tasks_nodup i)
  exact ht.imp (fun h he => h (congrArg Prod.snd he))

theorem dedupFirst_not_seen : ∀ (l : List Issue) (seen : List String) (x : Issue),
    x ∈ dedupFirst seen l → seen.contains (keptKey x) = false
  | [], seen, x, hx => by simp [dedupFirst] at hx
  | i :: rest, seen, x, hx => by
    simp only [dedupFirst] at hx
    by_cases h : seen.contains (keptKey i) = true
    · rw [if_pos h] at hx
      exact dedupFirst_not_seen rest seen x hx
    · rw [if_neg h] at hx
      rcases List.mem_cons.mp hx with h1 | h1
      · subst h1
        simpa using h
      · have h2 := dedupFirst_not_seen rest (keptKey i :: seen) x h1
        simp only [List.contains_cons, Bool.or_eq_false_iff] at h2
        exact h2.2

theorem dedupFirst_pairwise : ∀ (l : List Issue) (seen : List String),
    (dedupFirst seen l).Pairwise (fun a b => keptKey a ≠ keptKey b)
  | [], _ => List.Pairwise.nil
  | i :: rest, seen => by
    simp only [dedupFirst]
    by_cases h : seen.contains (keptKey i) = true
    · rw [if_pos h]
      exact dedupFirst_pairwise rest seen
    · rw [if_neg h]
      refine List.Pairwise.cons ?_ (dedupFirst_pairwise rest (keptKey i :: seen))
      intro y hy heq
      have h2 := dedupFirst_not_seen rest (keptKey i :: seen) y hy
      simp only [List.contains_cons, Bool.or_eq_false_iff,
        beq_eq_false_iff_ne] at h2
      exact h2.1 heq.symm

theorem dedupFirst_subset : ∀ (l : List Issue) (seen : List String) (x : Issue),
    x ∈ dedupFirst seen l → x ∈ l
  | [], seen, x, hx => by simp [dedupFirst] at hx
  | i :: rest, seen, x, hx => by
    simp only [dedupFirst] at hx
    by_cases h : seen.contains (keptKey i) = true
    · rw [if_pos h] at hx
      exact List.mem_cons_of_mem i (dedupFirst_subset rest seen x hx)
    · rw [if_neg h] at hx
      rcases List.mem_cons.mp hx with h1 | h1
      · exact h1 ▸ List.mem_cons_self i rest
      · exact List.mem_cons_of_mem i
          (dedupFirst_subset rest (keptKey i :: seen) x h1)

theorem keptKey_eq_keyOf {i : Issue} (h : hasKey i = true) :
    keptKey i = keyOf i := by
  unfold hasKey at h
  cases hk : i.key with
  | none => rw [hk] at h; simp at h
  | some k => simp [keptKey, keyOf, hk]

theorem flatMap_pairs_pairwise : ∀ l : List Issue,
    l.Pairwise (fun a b => keyOf a ≠ keyOf b) →
    ((l.flatMap format_for_llm).map fun e => (e.meta.id, e.meta.task)).Pairwise
      (fun a b => a ≠ b)
  | [], _ => by simp
  | i :: rest, hpw => by
    rcases List.pairwise_cons.mp hpw with ⟨hhead, htail⟩
    rw [List.flatMap_cons, List.map_append, List.pairwise_append]
    refine ⟨format_pairs_pairwise i, flatMap_pairs_pairwise rest htail, ?_⟩
    intro a ha b hb
    rcases List.mem_map.mp ha with ⟨ea, hea, rfl⟩
    rcases List.mem_map.mp hb with ⟨eb, heb, rfl⟩
    rcases List.mem_flatMap.mp heb with ⟨j, hj, hebj⟩
    have h1 : ea.meta.id = keyOf i := format_id i ea hea
    have h2 : eb.meta.id = keyOf j := format_id j eb hebj
    intro he
    have h3 : ea.meta.id = eb.meta.id := congrArg Prod.fst he
    rw [h1, h2] at h3
    exact hhead j hj h3

/-- C2: the processor emits the examples of exactly the first occurrence
of each usable key, in lexicographic filename order and in-file order
(first conjunct: the output is the first-occurrence deduplication of the
flattened, sorted file stream), and consequently every `(meta.id,
meta.task)` pair in the output file is unique (second conjunct). -/
theorem c2_dedup_unique_pairs (files : List (String × List Issue)) :
    processor_main files =
      (dedupFirst [] (issuesInOrder files)).flatMap format_for_llm ∧
    ((processor_main files).map fun e => (e.meta.id, e.meta.task)).Pairwise
      (fun a b => a ≠ b) := by
  refine ⟨processor_main_eq files, ?_⟩
  rw [processor_main_eq files]
  apply flatMap_pairs_pairwise
  have hpw := dedupFirst_pairwise (issuesInOrder files) []
  refine List.Pairwise.imp_of_mem ?_ hpw
  intro a b ha hb hR
  have ha2 := dedupFirst_subset _ _ _ ha
  have hb2 := dedupFirst_subset _ _ _ hb
  unfold issuesInOrder at ha2 hb2
  have hae : hasKey a = true := (List.mem_filter.mp ha2).2
  have hbe : hasKey b = true := (List.mem_filter.mp hb2).2
  rw [← keptKey_eq_keyOf hae, ← keptKey_eq_keyOf hbe]
  exact hR

theorem summarizationOutput_shape (i : Issue) :
    (summarizationEntry i).output =
      "Summary: " ++ (summaryOf i ++ "." ++
        (if descriptionOf i ≠ "" ∧ descriptionOf i ≠ "No description provided"
         then " " ++ (String.mk ((descriptionOf i).data.take 150) ++
           (if 150 < (descriptionOf i).length then "..." else ""))
         else "")) := by
  show "Summary: " ++ summaryOutputOf i = _
  unfold summaryOutputOf descSnippet
  by_cases hd : descriptionOf i ≠ "" ∧ descriptionOf i ≠ "No description provided"
  · rw [if_pos hd, if_pos hd]
    by_cases hl : (descriptionOf i).length > 150
    · rw [if_pos hl, if_pos hl]
    · rw [if_neg hl, if_neg hl]
      have h1 : (descriptionOf i).data.length = (descriptionOf i).length := rfl
      rw [List.take_of_length_le (by omega)]
      rw [show String.mk (descriptionOf i).data = descriptionOf i from rfl]
      rw [show (descriptionOf i ++ "" : String) = descriptionOf i from by simp]
  · rw [if_neg hd, if_neg hd]
    rw [show (summaryOf i ++ "." ++ "" : String) = summaryOf i ++ "." from by
      simp]

/-- C5 counterexample: for the issue `cSimple` the summarization output
field is `"Summary: Fix."`, not the cleaned summary followed by a period
(`"Fix."`) — the field carries the literal `"Summary: "` prefix the claim
omits. -/
theorem c5_counterexample :
    (format_for_llm cSimple).map (fun e => e.meta.task) =
      ["classification", "summarization", "qna"] ∧
    (summarizationEntry cSimple).output = "Summary: Fix." ∧
    (summarizationEntry cSimple).output ≠ summaryOf cSimple ++ "." := by
  refine ⟨rfl, by decide, by decide⟩

/-- C5 (amended): the summarization output field is the literal prefix
`"Summary: "`, then the cleaned summary followed by a period, plus — if
and only if a real (non-empty, non-placeholder) cleaned description is
present — a single space and the first 150 characters of the description
with an ellipsis appended exactly when the description exceeds 150
characters, and nothing else. -/
theorem c5_amended_summarization_output (i : Issue) :
    (summarizationEntry i).output =
      "Summary: " ++ (summaryOf i ++ "." ++
        (if descriptionOf i ≠ "" ∧ descriptionOf i ≠ "No description provided"
         then " " ++ (String.mk ((descriptionOf i).data.take 150) ++
           (if 150 < (descriptionOf i).length then "..." else ""))
         else "")) :=
  summarizationOutput_shape i

/-- C4 counterexample: `cSimple`'s cleaned description is the placeholder
`"No description provided"` (23 characters, at most 150), yet it is not
included in the summarization output at all — refuting the claim that any
description of at most 150 characters is included in full. -/
theorem c4_counterexample :
    (descriptionOf cSimple).length ≤ 150 ∧
    ¬ List.IsInfix (descriptionOf cSimple).data
        (summarizationEntry cSimple).output.data := by
  refine ⟨by decide, fun h => ?_⟩
  exact absurd h.length_le (by decide)

/-- C4 (amended): a cleaned description of exactly 151 characters yields a
summarization output carrying its first 150 characters followed by an
ellipsis; a real (non-empty and not the placeholder) cleaned description
of at most 150 characters is included in full with no ellipsis appended;
an empty or placeholder description is omitted from the output
entirely. -/
theorem c4_amended_truncation (i : Issue) :
    ((descriptionOf i).length = 151 →
      (summarizationEntry i).output =
        "Summary: " ++ (summaryOf i ++ "." ++ (" " ++
          (String.mk ((descriptionOf i).data.take 150) ++ "...")))) ∧
    ((descriptionOf i).length ≤ 150 → descriptionOf i ≠ "" →
      descriptionOf i ≠ "No description provided" →
      (summarizationEntry i).output =
        "Summary: " ++ (summaryOf i ++ "." ++ (" " ++ descriptionOf i))) ∧
    ((descriptionOf i = "" ∨ descriptionOf i = "No description provided") →
      (summarizationEntry i).output = "Summary: " ++ (summaryOf i ++ ".")) := by
  refine ⟨?_, ?_, ?_⟩
  · intro h151
    have hne : descriptionOf i ≠ "" := by
      intro he; rw [he] at h151; exact absurd h151 (by decide)
    have hnp : descriptionOf i ≠ "No description provided" := by
      intro he; rw [he] at h151; exact absurd h151 (by decide)
    rw [summarizationOutput_shape i, if_pos ⟨hne, hnp⟩,
      if_pos (by omega : 150 < (descriptionOf i).length)]
  · intro hlen hne hnp
    rw [summarizationOutput_shape i, if_pos ⟨hne, hnp⟩,
      if_neg (by omega : ¬ 150 < (descriptionOf i).length)]
    have h1 : (descriptionOf i).data.length = (descriptionOf i).length := rfl
    rw [List.take_of_length_le (by omega)]
    rw [show String.mk (descriptionOf i).data = descriptionOf i from rfl]
    rw [show (descriptionOf i ++ "" : String) = descriptionOf i from by simp]
  · intro hd
    rw [summarizationOutput_shape i, if_neg (fun hc => ?_)]
    · rw [show (summaryOf i ++ "." ++ "" : String) = summaryOf i ++ "." from by
        simp]
    · rcases hd with h1 | h1
      · exact hc.1 h1
      · exact hc.2 h1

set_option maxRecDepth 4000 in
theorem c4_amended_truncation_witness :
    ((descriptionOf cLong).length = 151 ∧
      (summarizationEntry cLong).output =
        "Summary: " ++ (summaryOf cLong ++ "." ++ (" " ++
          (String.mk ((descriptionOf cLong).data.take 150) ++ "...")))) ∧
    (summarizationEntry cMid).output =
      "Summary: " ++ (summaryOf cMid ++ "." ++ (" " ++ descriptionOf cMid)) ∧
    (summarizationEntry cSimple).output =
      "Summary: " ++ (summaryOf cSimple ++ ".") :=
  ⟨⟨by decide, (c4_amended_truncation cLong).1 (by decide)⟩,
    (c4_amended_truncation cMid).2.1 (by decide) (by decide) (by decide),
    (c4_amended_truncation cSimple).2.2 (Or.inr (by decide))⟩

theorem scrape_skip (fetch : Nat → FetchResult) (project : String)
    (fuel startAt pageNum nf : Nat) (fs : FS)
    (h1 : startAt < MAX_RESULTS_PER_PROJECT)
    (h2 : is_page_scraped fs project pageNum = true) :
    scrape_loop fetch project (fuel + 1) startAt pageNum fs nf =
      scrape_loop fetch project fuel (startAt + RESULTS_PER_PAGE)
        (pageNum + 1) fs nf := by
  simp only [scrape_loop]
  rw [if_pos h1, if_pos h2]

theorem scrape_stop (fetch : Nat → FetchResult) (project : String)
    (fuel startAt pageNum nf : Nat) (fs : FS)
    (h : ¬ startAt < MAX_RESULTS_PER_PROJECT) :
    scrape_loop fetch project fuel startAt pageNum fs nf = (fs, nf) := by
  cases fuel with
  | zero => rfl
  | succ f =>
    simp only [scrape_loop]
    rw [if_neg h]

theorem scrape_project_all_present (fetch : Nat → FetchResult)
    (project : String) (fuel : Nat) (fs : FS) (h4 : 4 ≤ fuel)
    (hp : ∀ k, k < 4 → is_page_scraped fs project k = true) :
    scrape_project fetch project fuel fs = (fs, 0) := by
  obtain ⟨f, rfl⟩ : ∃ f, fuel = f + 4 := ⟨fuel - 4, by omega⟩
  unfold scrape_project
  rw [show f + 4 = f + 3 + 1 from rfl,
    scrape_skip fetch project (f + 3) 0 0 0 fs (by decide) (hp 0 (by decide)),
    show f + 3 = f + 2 + 1 from rfl,
    scrape_skip fetch project (f + 2) _ _ 0 fs (by decide) (hp 1 (by decide)),
    show f + 2 = f + 1 + 1 from rfl,
    scrape_skip fetch project (f + 1) _ _ 0 fs (by decide) (hp 2 (by decide)),
    scrape_skip fetch project f _ _ 0 fs (by decide) (hp 3 (by decide)),
    scrape_stop fetch project f _ _ 0 fs (by decide)]

theorem scraper_main_all_present (fetch : String → Nat → FetchResult)
    (fuel : Nat) (fs : FS) (h4 : 4 ≤ fuel)
    (hp : ∀ project ∈ PROJECTS, ∀ k, k < 4 →
      is_page_scraped fs project k = true) :
    scraper_main fetch fuel fs = (fs, 0) := by
  have h1 : scrape_project (fetch "KAFKA") "KAFKA" fuel fs = (fs, 0) :=
    scrape_project_all_present _ _ _ _ h4 (hp "KAFKA" (by decide))
  have h2 : scrape_project (fetch "ZOOKEEPER") "ZOOKEEPER" fuel fs = (fs, 0) :=
    scrape_project_all_present _ _ _ _ h4 (hp "ZOOKEEPER" (by decide))
  have h3 : scrape_project (fetch "CASSANDRA") "CASSANDRA" fuel fs = (fs, 0) :=
    scrape_project_all_present _ _ _ _ h4 (hp "CASSANDRA" (by decide))
  unfold scraper_main PROJECTS
  simp only [List.foldl_cons, List.foldl_nil, h1, h2, h3]

/-- C6: when the page file for the current page number already exists, one
loop iteration advances the offset by the page size (50) and the page
number by one without any network call (first conjunct); consequently a
run over a fully populated data directory (all four pages of every
configured project present) performs zero fetches and leaves the data
directory unchanged (second conjunct). -/
theorem c6_resumption (fetch : String → Nat → FetchResult) :
    (∀ (project : String) (fuel startAt pageNum nf : Nat) (fs : FS),
      startAt < MAX_RESULTS_PER_PROJECT →
      is_page_scraped fs project pageNum = true →
      scrape_loop (fetch project) project (fuel + 1) startAt pageNum fs nf =
        scrape_loop (fetch project) project fuel
          (startAt + RESULTS_PER_PAGE) (pageNum + 1) fs nf) ∧
    (∀ (fuel : Nat) (fs : FS), 4 ≤ fuel →
      (∀ project ∈ PROJECTS, ∀ k, k < 4 →
        is_page_scraped fs project k = true) →
      scraper_main fetch fuel fs = (fs, 0)) :=
  ⟨fun project fuel startAt pageNum nf fs h1 h2 =>
      scrape_skip (fetch project) project fuel startAt pageNum nf fs h1 h2,
    fun fuel fs h4 hp => scraper_main_all_present fetch fuel fs h4 hp⟩

theorem c6_resumption_witness :
    scraper_main cFetch 4 cFS = (cFS, 0) ∧
    scrape_loop (cFetch "KAFKA") "KAFKA" 1 0 0 cFS 0 =
      scrape_loop (cFetch "KAFKA") "KAFKA" 0 50 1 cFS 0 :=
  ⟨(c6_resumption cFetch).2 4 cFS (by decide)
      (fun p _ k _ => rfl),
    (c6_resumption cFetch).1 "KAFKA" 0 0 0 0 cFS (by decide) rfl⟩

/-- C9: whenever both scripts are present and the Scraper child exits with
a non-zero status, the Pipeline Runner exits with status 1 and the
Processor is never invoked. -/
theorem c9_short_circuit (env : PipeEnv)
    (hs : env.scraperScriptPresent = true)
    (hp : env.processorScriptPresent = true)
    (hx : env.scraperExit ≠ 0) :
    pipeline_main env = (1, false) := by
  have h1 : (env.scraperExit == 0) = false := by
    simp only [beq_eq_false_iff_ne]
    exact hx
  simp [pipeline_main, run_command, hs, hp, h1]

theorem c9_short_circuit_witness : pipeline_main cPipeEnv = (1, false) :=
  c9_short_circuit cPipeEnv rfl rfl (by decide)

theorem validateAux_spec : ∀ (lines : List VLine) (errs warns : Nat)
    (counts : List (String × Nat)),
    validateAux errs warns counts lines =
      (errs + (lines.map lineErrors).sum,
        warns + (lines.map lineWarnings).sum,
        lines.foldl lineCounts counts)
  | [], errs, warns, counts => by simp [validateAux]
  | line :: rest, errs, warns, counts => by
    simp only [validateAux, List.map_cons, List.sum_cons, List.foldl_cons]
    rw [validateAux_spec rest, Nat.add_assoc, Nat.add_assoc]

theorem validate_single (l : VLine) :
    validate_jsonl [l] =
      { ok := lineErrors l == 0, errors := lineErrors l,
        warnings := lineWarnings l, counts := lineCounts initCounts l } := by
  simp [validate_jsonl, validateAux]

/-- C7: given the output file exists, the verdict fails iff at least one
error was recorded (first conjunct); a parsed line with the `output` field
missing forces a failing verdict (second conjunct); a complete entry
whose `instruction` is blank after stripping yields zero errors, a passing
verdict, and at least one warning — blank fields warn but never fail
(third conjunct). -/
theorem c7_verdict (lines : List VLine) :
    ((validate_jsonl lines).ok = false ↔ (validate_jsonl lines).errors ≠ 0) ∧
    (∀ e : VEntry, e.output = none →
      (validate_jsonl (VLine.parsed e :: lines)).ok = false) ∧
    (∀ (m : VMeta) (s : String), m.source.isSome = true → m.id.isSome = true →
      m.url.isSome = true → m.task.isSome = true → pyStripStr s = "" →
      (validate_jsonl [VLine.parsed (blankInstrEntry m s)]).errors = 0 ∧
      (validate_jsonl [VLine.parsed (blankInstrEntry m s)]).ok = true ∧
      0 < (validate_jsonl [VLine.parsed (blankInstrEntry m s)]).warnings) := by
  refine ⟨?_, ?_, ?_⟩
  · simp only [validate_jsonl, beq_eq_false_iff_ne]
  · intro e he
    simp only [validate_jsonl]
    rw [validateAux_spec]
    simp only [List.map_cons, List.sum_cons, Nat.zero_add]
    rw [beq_eq_false_iff_ne]
    have hsh : lineErrors (VLine.parsed e) = missingTopCount e +
        (match e.meta with
         | none => 0
         | some m => missingMetaCount m) := rfl
    have h3 : (if e.output.isNone then 1 else 0) = 1 := by rw [he]; rfl
    have h4 : 1 ≤ missingTopCount e := by
      unfold missingTopCount
      rw [h3]
      omega
    have h5 : 1 ≤ lineErrors (VLine.parsed e) := by
      rw [hsh]
      omega
    omega
  · intro m s h1 h2 h3 h4 hb
    obtain ⟨a1, ha1⟩ := Option.isSome_iff_exists.mp h1
    obtain ⟨a2, ha2⟩ := Option.isSome_iff_exists.mp h2
    obtain ⟨a3, ha3⟩ := Option.isSome_iff_exists.mp h3
    obtain ⟨a4, ha4⟩ := Option.isSome_iff_exists.mp h4
    have herr : lineErrors (VLine.parsed (blankInstrEntry m s)) = 0 := by
      have hsh : lineErrors (VLine.parsed (blankInstrEntry m s)) =
          missingTopCount (blankInstrEntry m s) + missingMetaCount m := rfl
      have ht : missingTopCount (blankInstrEntry m s) = 0 := rfl
      have hm : missingMetaCount m = 0 := by
        unfold missingMetaCount
        rw [ha1, ha2, ha3, ha4]
        rfl
      rw [hsh, ht, hm]
    have hbs : blankWarnOf (some s) = 1 := by simp [blankWarnOf, hb]
    have hwarn : 0 < lineWarnings (VLine.parsed (blankInstrEntry m s)) := by
      have hshape : lineWarnings (VLine.parsed (blankInstrEntry m s)) =
          taskWarnOf m + blankWarnOf (some s) + blankWarnOf (some "x")
            + blankWarnOf (some "y") := rfl
      rw [hshape, hbs]
      omega
    rw [validate_single]
    exact ⟨herr, by rw [herr]; rfl, hwarn⟩

theorem c7_verdict_witness :
    ((validate_jsonl []).ok = false ↔ (validate_jsonl []).errors ≠ 0) ∧
    (validate_jsonl [VLine.parsed cNoOutputEntry]).ok = false ∧
    (validate_jsonl [VLine.parsed (blankInstrEntry cCompleteMeta " ")]).errors
        = 0 ∧
    (validate_jsonl [VLine.parsed (blankInstrEntry cCompleteMeta " ")]).ok
        = true ∧
    0 < (validate_jsonl
        [VLine.parsed (blankInstrEntry cCompleteMeta " ")]).warnings :=
  ⟨(c7_verdict []).1,
    (c7_verdict []).2.1 cNoOutputEntry rfl,
    (c7_verdict []).2.2 cCompleteMeta " " rfl rfl rfl rfl (by decide)⟩

/-- C8 counterexample: an entry whose `meta.task` is present but the empty
string.  The empty string is not a canonical label, yet the validator
records no warning and increments no tally — the task value is silently
ignored, refuting the claim that every present task value is either
tallied or warned about. -/
theorem c8_counterexample :
    cEmptyTaskEntry.meta = some cEmptyTaskMeta ∧
    cEmptyTaskMeta.task = some "" ∧
    VALID_TASKS.contains "" = false ∧
    (validate_jsonl [VLine.parsed cEmptyTaskEntry]).warnings = 0 ∧
    (validate_jsonl [VLine.parsed cEmptyTaskEntry]).counts = initCounts := by
  decide

/-- C8 (amended): for every parsed entry whose meta contains a non-empty
task value, a canonical value increments exactly its own tally (and draws
no task warning), and a non-canonical value draws exactly one task warning
(and leaves every tally at zero); a present but empty-string task value is
the one case that is silently ignored. -/
theorem c8_amended_task_accounting (e : VEntry) (m : VMeta) (t : String)
    (hme : e.meta = some m) (hmt : m.task = some t) (hne : t ≠ "") :
    (VALID_TASKS.contains t = true →
      taskWarnOf m = 0 ∧
      (validate_jsonl [VLine.parsed e]).counts = bumpCount initCounts t ∧
      lookupCount (validate_jsonl [VLine.parsed e]).counts t = 1) ∧
    (VALID_TASKS.contains t = false →
      taskWarnOf m = 1 ∧
      0 < (validate_jsonl [VLine.parsed e]).warnings ∧
      (validate_jsonl [VLine.parsed e]).counts = initCounts) := by
  constructor
  · intro hc
    have hc2 : t ∈ VALID_TASKS := by simpa using hc
    have hw : taskWarnOf m = 0 := by simp [taskWarnOf, hmt, hne, hc2]
    have hcounts : lineCounts initCounts (VLine.parsed e) =
        bumpCount initCounts t := by
      simp [lineCounts, hme, taskIncOf, hmt, hne, hc2]
    refine ⟨hw, ?_, ?_⟩
    · rw [validate_single]
      exact hcounts
    · rw [validate_single]
      show lookupCount (lineCounts initCounts (VLine.parsed e)) t = 1
      rw [hcounts]
      simp only [VALID_TASKS, List.mem_cons, List.not_mem_nil, or_false]
        at hc2
      rcases hc2 with h | h | h | h <;> (subst h; decide)
  · intro hc
    have hc2 : t ∉ VALID_TASKS := by simpa using hc
    have hw : taskWarnOf m = 1 := by simp [taskWarnOf, hmt, hne, hc2]
    refine ⟨hw, ?_, ?_⟩
    · rw [validate_single]
      show 0 < lineWarnings (VLine.parsed e)
      have hshape : lineWarnings (VLine.parsed e) =
          taskWarnOf m + blankWarnOf e.instruction + blankWarnOf e.input
            + blankWarnOf e.output := by
        simp only [lineWarnings]
        rw [hme]
      rw [hshape, hw]
      omega
    · rw [validate_single]
      show lineCounts initCounts (VLine.parsed e) = initCounts
      simp [lineCounts, hme, taskIncOf, hmt, hne, hc2]

theorem c8_amended_task_accounting_witness :
    (taskWarnOf cGoodTaskMeta = 0 ∧
      (validate_jsonl [VLine.parsed cGoodTaskEntry]).counts =
        bumpCount initCounts "qna" ∧
      lookupCount (validate_jsonl [VLine.parsed cGoodTaskEntry]).counts "qna"
        = 1) ∧
    (taskWarnOf cBadTaskMeta = 1 ∧
      0 < (validate_jsonl [VLine.parsed cBadTaskEntry]).warnings ∧
      (validate_jsonl [VLine.parsed cBadTaskEntry]).counts = initCounts) :=
  ⟨(c8_amended_task_accounting cGoodTaskEntry cGoodTaskMeta "qna"
      rfl rfl (by decide)).1 (by decide),
    (c8_amended_task_accounting cBadTaskEntry cBadTaskMeta "weird"
      rfl rfl (by decide)).2 (by decide)⟩

theorem pyStrip_ne_nil_of_head {c : Char} {cs : List Char}
    (hc : isWS c = false) : pyStrip (c :: cs) ≠ [] := by
  unfold pyStrip
  rw [List.dropWhile_cons, hc]
  simp only [Bool.false_eq_true, if_false]
  intro h
  have h2 : (c :: cs).reverse.dropWhile isWS = [] := by
    have h3 := congrArg List.reverse h
    simpa using h3
  have h4 := (List.dropWhile_eq_nil_iff).mp h2 c (by simp)
  rw [hc] at h4
  exact Bool.noConfusion h4

theorem blankWarn_zero_of_head {s : String} {c : Char}
    (hc : isWS c = false) (h : ∃ cs, s.data = c :: cs) :
    blankWarnOf (some s) = 0 := by
  obtain ⟨cs, hd⟩ := h
  have hne : pyStripStr s ≠ "" := by
    intro hb
    have h2 : pyStrip s.data = [] := congrArg String.data hb
    rw [hd] at h2
    exact pyStrip_ne_nil_of_head hc h2
  show (if pyStripStr s = "" then 1 else 0) = 0
  rw [if_neg hne]

theorem nonblank_of_blankWarn {s : String} (h : blankWarnOf (some s) = 0) :
    pyStripStr s ≠ "" := by
  intro he
  have h2 : (if pyStripStr s = "" then 1 else 0) = 0 := h
  rw [if_pos he] at h2
  exact Nat.noConfusion h2

theorem head_append_many : ∀ (bs : List String) {a : String} {c : Char}
    {cs : List Char}, a.data = c :: cs →
    ∃ cs2, (bs.foldl (fun x y => x ++ y) a).data = c :: cs2
  | [], _, _, cs, ha => ⟨cs, ha⟩
  | b :: bs, a, c, cs, ha =>
    head_append_many bs
      (show (a ++ b).data = c :: (cs ++ b.data) from by
        rw [String.data_append, ha, List.cons_append])

theorem entry_vline_wf (e : Entry)
    (htask : VALID_TASKS.contains e.meta.task = true)
    (hi : blankWarnOf (some e.instruction) = 0)
    (hin : blankWarnOf (some e.input) = 0)
    (ho : blankWarnOf (some e.output) = 0)
    (htw : taskWarnOf (metaToVMeta e.meta) = 0) :
    lineErrors (entryToVLine e) = 0 ∧ lineWarnings (entryToVLine e) = 0 ∧
    VALID_TASKS.contains e.meta.task = true ∧
    pyStripStr e.instruction ≠ "" ∧ pyStripStr e.input ≠ "" ∧
    pyStripStr e.output ≠ "" := by
  refine ⟨rfl, ?_, htask, nonblank_of_blankWarn hi, nonblank_of_blankWarn hin,
    nonblank_of_blankWarn ho⟩
  have hlw : lineWarnings (entryToVLine e) =
      taskWarnOf (metaToVMeta e.meta) + blankWarnOf (some e.instruction)
        + blankWarnOf (some e.input) + blankWarnOf (some e.output) := rfl
  rw [hlw, htw, hi, hin, ho]

theorem classification_wf (i : Issue) :
    lineErrors (entryToVLine (classificationEntry i)) = 0 ∧
    lineWarnings (entryToVLine (classificationEntry i)) = 0 ∧
    VALID_TASKS.contains (classificationEntry i).meta.task = true ∧
    pyStripStr (classificationEntry i).instruction ≠ "" ∧
    pyStripStr (classificationEntry i).input ≠ "" ∧
    pyStripStr (classificationEntry i).output ≠ "" :=
  entry_vline_wf (classificationEntry i) rfl
    (show blankWarnOf (some "Analyze the issue description and discussion to determine the current status and priority.") = 0 from by decide)
    (blankWarn_zero_of_head (c := 'T') (by decide)
      (head_append_many [summaryOf i, "\nDescription: ", descriptionOf i,
        "\nComments: ", commentsTextOf i]
        (show ("Title: " : String).data = 'T' :: "itle: ".data from rfl)))
    (blankWarn_zero_of_head (c := 'S') (by decide)
      (head_append_many [statusOf i, "\nPriority: ", priorityOf i]
        (show ("Status: " : String).data = 'S' :: "tatus: ".data from rfl)))
    rfl

theorem summarization_wf (i : Issue) :
    lineErrors (entryToVLine (summarizationEntry i)) = 0 ∧
    lineWarnings (entryToVLine (summarizationEntry i)) = 0 ∧
    VALID_TASKS.contains (summarizationEntry i).meta.task = true ∧
    pyStripStr (summarizationEntry i).instruction ≠ "" ∧
    pyStripStr (summarizationEntry i).input ≠ "" ∧
    pyStripStr (summarizationEntry i).output ≠ "" :=
  entry_vline_wf (summarizationEntry i) rfl
    (show blankWarnOf (some "Generate a concise summary of this Jira issue in 1-2 sentences.") = 0 from by decide)
    (blankWarn_zero_of_head (c := 'I') (by decide)
      (head_append_many [keyOf i, "\nTitle: ", summaryOf i,
        "\nDescription: ", descriptionOf i, "\nStatus: ", statusOf i,
        "\nPriority: ", priorityOf i]
        (show ("Issue Key: " : String).data = 'I' :: "ssue Key: ".data
          from rfl)))
    (blankWarn_zero_of_head (c := 'S') (by decide)
      (head_append_many [summaryOutputOf i]
        (show ("Summary: " : String).data = 'S' :: "ummary: ".data from rfl)))
    rfl

theorem qna_wf (i : Issue) :
    lineErrors (entryToVLine (qnaEntry i)) = 0 ∧
    lineWarnings (entryToVLine (qnaEntry i)) = 0 ∧
    VALID_TASKS.contains (qnaEntry i).meta.task = true ∧
    pyStripStr (qnaEntry i).instruction ≠ "" ∧
    pyStripStr (qnaEntry i).input ≠ "" ∧
    pyStripStr (qnaEntry i).output ≠ "" :=
  entry_vline_wf (qnaEntry i) rfl
    (show blankWarnOf (some "Answer the question based on the Jira issue information and discussion.") = 0 from by decide)
    (blankWarn_zero_of_head (c := 'Q') (by decide)
      (head_append_many [keyOf i, " regarding \x27", summaryOf i,
        "\x27?\n\nIssue Details:\nTitle: ", summaryOf i, "\nDescription: ",
        descriptionOf i, "\nComments: ", commentsTextOf i]
        (show ("Question: What is the current status and priority of issue "
            : String).data
          = 'Q' :: "uestion: What is the current status and priority of issue ".data
          from rfl)))
    (blankWarn_zero_of_head (c := 'A') (by decide)
      (head_append_many [keyOf i, " is currently marked as \x27", statusOf i,
        "\x27 with a priority level of \x27", priorityOf i,
        "\x27. The issue is assigned to ", assigneeOf i, ". Labels: ",
        labelsTextOf i, "."]
        (show ("Answer: Issue " : String).data = 'A' :: "nswer: Issue ".data
          from rfl)))
    rfl

theorem rootcause_wf (i : Issue) :
    lineErrors (entryToVLine (rootCauseEntry i)) = 0 ∧
    lineWarnings (entryToVLine (rootCauseEntry i)) = 0 ∧
    VALID_TASKS.contains (rootCauseEntry i).meta.task = true ∧
    pyStripStr (rootCauseEntry i).instruction ≠ "" ∧
    pyStripStr (rootCauseEntry i).input ≠ "" ∧
    pyStripStr (rootCauseEntry i).output ≠ "" :=
  entry_vline_wf (rootCauseEntry i) rfl
    (show blankWarnOf (some "Based on the issue description and team discussion, identify the root cause and proposed solution.") = 0 from by decide)
    (blankWarn_zero_of_head (c := 'I') (by decide)
      (head_append_many [keyOf i, "\nTitle: ", summaryOf i,
        "\nDescription: ", descriptionOf i, "\nTeam Discussion: ",
        commentsTextOf i]
        (show ("Issue: " : String).data = 'I' :: "ssue: ".data from rfl)))
    (blankWarn_zero_of_head (c := 'T') (by decide)
      (head_append_many [summaryOf i, "\x27 was analyzed and is currently ",
        statusOf i, ". Priority: ", priorityOf i,
        ". The team discussion provides context on resolution approaches."]
        (show ("The issue \x27" : String).data = 'T' :: "he issue \x27".data
          from rfl)))
    rfl

theorem entries_wellformed (i : Issue) : ∀ e ∈ format_for_llm i,
    lineErrors (entryToVLine e) = 0 ∧ lineWarnings (entryToVLine e) = 0 ∧
    VALID_TASKS.contains e.meta.task = true ∧
    pyStripStr e.instruction ≠ "" ∧ pyStripStr e.input ≠ "" ∧
    pyStripStr e.output ≠ "" := by
  intro e he
  unfold format_for_llm at he
  by_cases h : 0 < (commentsListOf i).length
  · rw [if_pos h] at he
    simp only [List.mem_cons, List.not_mem_nil, or_false] at he
    rcases he with h1 | h1 | h1 | h1 <;> subst h1
    · exact classification_wf i
    · exact summarization_wf i
    · exact qna_wf i
    · exact rootcause_wf i
  · rw [if_neg h] at he
    simp only [List.mem_cons, List.not_mem_nil, or_false] at he
    rcases he with h1 | h1 | h1 <;> subst h1
    · exact classification_wf i
    · exact summarization_wf i
    · exact qna_wf i

/-- C10: every example the Processor emits carries all four top-level
fields and all four meta fields (the validator records zero errors for its
line), a canonical task label, and non-blank instruction, input and output
(zero warnings); hence a dataset file consisting solely of
Processor-emitted lines passes validation with zero errors and zero
warnings. -/
theorem c10_output_validates :
    (∀ (i : Issue), ∀ e ∈ format_for_llm i,
      lineErrors (entryToVLine e) = 0 ∧ lineWarnings (entryToVLine e) = 0 ∧
      VALID_TASKS.contains e.meta.task = true ∧
      pyStripStr e.instruction ≠ "" ∧ pyStripStr e.input ≠ "" ∧
      pyStripStr e.output ≠ "") ∧
    (∀ files : List (String × List Issue),
      (validate_jsonl ((processor_main files).map entryToVLine)).errors = 0 ∧
      (validate_jsonl ((processor_main files).map entryToVLine)).warnings = 0 ∧
      (validate_jsonl ((processor_main files).map entryToVLine)).ok
        = true) := by
  refine ⟨entries_wellformed, ?_⟩
  intro files
  have hmem : ∀ l ∈ (processor_main files).map entryToVLine,
      lineErrors l = 0 ∧ lineWarnings l = 0 := by
    intro l hl
    rcases List.mem_map.mp hl with ⟨e, he, rfl⟩
    rw [processor_main_eq] at he
    rcases List.mem_flatMap.mp he with ⟨i, hi, hei⟩
    have h := entries_wellformed i e hei
    exact ⟨h.1, h.2.1⟩
  have herr : (((processor_main files).map entryToVLine).map
      lineErrors).sum = 0 := by
    apply List.sum_eq_zero
    intro x hx
    rcases List.mem_map.mp hx with ⟨l, hl, rfl⟩
    exact (hmem l hl).1
  have hwarn : (((processor_main files).map entryToVLine).map
      lineWarnings).sum = 0 := by
    apply List.sum_eq_zero
    intro x hx
    rcases List.mem_map.mp hx with ⟨l, hl, rfl⟩
    exact (hmem l hl).2
  have hv := validateAux_spec ((processor_main files).map entryToVLine)
    0 0 initCounts
  have he1 : (validateAux 0 0 initCounts
      ((processor_main files).map entryToVLine)).1 = 0 := by
    rw [hv]
    simpa using herr
  have hw1 : (validateAux 0 0 initCounts
      ((processor_main files).map entryToVLine)).2.1 = 0 := by
    rw [hv]
    simpa using hwarn
  refine ⟨he1, hw1, ?_⟩
  show ((validateAux 0 0 initCounts
    ((processor_main files).map entryToVLine)).1 == 0) = true
  rw [he1]
  rfl

set_option maxRecDepth 4000 in
theorem c10_output_validates_witness :
    lineErrors (entryToVLine (classificationEntry cSimple)) = 0 ∧
    lineWarnings (entryToVLine (classificationEntry cSimple)) = 0 ∧
    VALID_TASKS.contains (classificationEntry cSimple).meta.task = true ∧
    pyStripStr (classificationEntry cSimple).instruction ≠ "" ∧
    pyStripStr (classificationEntry cSimple).input ≠ "" ∧
    pyStripStr (classificationEntry cSimple).output ≠ "" :=
  c10_output_validates.1 cSimple (classificationEntry cSimple) (by decide)
